import Mathlib

/-!
Shallow embedding of the naadanu-icbt voting subsystem.

The data model follows the SQL schema in
`supabase/migrations/20251103000000_add_voting_system.sql` (tables
`final_performances` and `performance_votes`, the `UNIQUE(performance_id,
voter_ip)` constraint, the `ON DELETE CASCADE` foreign key, and the
`performance_vote_counts` view) together with the base schema
(`categories`, `participants`, `auditions`).

The operations follow the client code: `handleVote`, `fetchPerformances`,
`getVotedPerformances` / `markAsVoted` in `src/components/VotingPage.tsx`,
`togglePerformanceStatus` and `handleDeletePerformance` in
`src/components/admin/PopularPerformancesManagement.tsx`, and
`handleSaveEdit` in `src/components/admin/AuditionsManagement.tsx`.

Row identifiers (`uuid` in the source) are modelled as `Nat`; fresh-id
generation (`gen_random_uuid()`) is modelled by a `next_id` counter on the
database state.  `timestamptz` columns carry no load in the claims and are
omitted.  Reads go through the row-level-security policies, parameterized
by the caller's `Role`: `select_participants`, `select_categories` and
`select_final_performances` translate the base schema's select policies,
and `select_raw_votes` the policy of
`supabase/migrations/20251118091330_protect_voter_privacy.sql` (the
`performance_vote_counts` view bypasses them, `security_invoker = false`).
The public voting page is served without authentication, so its caller is
the `anon` role.
-/

namespace Naadanu

/-- Row of the `categories` table. -/
structure Category where
  id : Nat
  name : String
  type : String
  is_group : Bool
deriving Repr, DecidableEq

/-- Row of the `participants` table (the fields the voting and audition
flows touch). -/
structure Participant where
  id : Nat
  full_name : String
  team_name : Option String
  category_id : Nat
  status : String
deriving Repr, DecidableEq

/-- Row of the `auditions` table. -/
structure Audition where
  id : Nat
  participant_id : Nat
  category_id : Nat
  scheduled_date : Option String
  venue : String
  result : String
  admin_notes : String
deriving Repr, DecidableEq

/-- Row of the `final_performances` table. -/
structure Performance where
  id : Nat
  participant_id : Nat
  category_id : Nat
  performance_title : String
  performance_image_url : Option String
  performance_order : Int
  is_active : Bool
deriving Repr, DecidableEq

/-- Row of the `performance_votes` table.  `voter_ip` is the opaque
client-generated voter identifier (the column name is historical). -/
structure Vote where
  id : Nat
  performance_id : Nat
  voter_ip : String
  voter_fingerprint : Option String
deriving Repr, DecidableEq

/-- The database state: one list per table, plus the fresh-id supply that
stands in for `gen_random_uuid()`. -/
structure DB where
  categories : List Category
  participants : List Participant
  auditions : List Audition
  performances : List Performance
  votes : List Vote
  next_id : Nat
deriving Repr, DecidableEq

/-- The empty database. -/
def DB.empty : DB := ⟨[], [], [], [], [], 0⟩

/-- Outcome of an SQL `INSERT` into `performance_votes`: success, a
`23505` unique-constraint violation of `UNIQUE(performance_id, voter_ip)`,
or a foreign-key violation of `performance_id REFERENCES
final_performances(id)`. -/
inductive InsertResult where
  | ok (db : DB)
  | uniqueViolation
  | fkViolation
deriving Repr, DecidableEq

/-- Storage-layer insert into `performance_votes`, as constrained by the
migration: the unique index on `(performance_id, voter_ip)` rejects a
duplicate pair, and the foreign key rejects a `performance_id` that no
`final_performances` row carries.  There is no `is_active` check: the
insert policy in the migration is `WITH CHECK (true)`. -/
def insert_performance_vote (db : DB) (pid : Nat) (tok : String)
    (fp : Option String) : InsertResult :=
  if db.votes.any (fun v => v.performance_id == pid && v.voter_ip == tok) then
    .uniqueViolation
  else if db.performances.any (fun p => p.id == pid) then
    .ok { db with
            votes := db.votes ++ [⟨db.next_id, pid, tok, fp⟩],
            next_id := db.next_id + 1 }
  else
    .fkViolation

/-- Number of `performance_votes` rows for one performance: the
`COUNT(pv.id)` of the `performance_vote_counts` view, which is computed
below the row-level-security policies.  (`voteCountAs` is the client-side
tally over the rows a caller may read.) -/
def voteCount (db : DB) (pid : Nat) : Nat :=
  (db.votes.filter (fun v => v.performance_id == pid)).length

/-- One row of the `performance_vote_counts` view.  The view's column
list carries no voter identifier and no fingerprint. -/
structure VoteCountRow where
  id : Nat
  participant_id : Nat
  category_id : Nat
  performance_title : String
  performance_order : Int
  is_active : Bool
  vote_count : Nat
deriving Repr, DecidableEq

/-- The `performance_vote_counts` view: a `LEFT JOIN` of
`final_performances` with `performance_votes` grouped by the performance
row, so there is exactly one row per `final_performances` row and its
`vote_count` is `COUNT(pv.id)` over the join. -/
def performance_vote_counts_rows (db : DB) : List VoteCountRow :=
  db.performances.map (fun fp =>
    ⟨fp.id, fp.participant_id, fp.category_id, fp.performance_title,
     fp.performance_order, fp.is_active, voteCount db fp.id⟩)

/-- Reading the `performance_vote_counts` view at one performance id: a
deleted performance contributes no row at all, so the read yields `none`
rather than a zero count. -/
def performance_vote_counts (db : DB) (pid : Nat) : Option Nat :=
  ((performance_vote_counts_rows db).find? (fun row => row.id == pid)).map
    (fun row => row.vote_count)

/-- The state `VotingPage` keeps in the browser: the `voter_id` local
storage key and the `voted_performances` list
(`getVotedPerformances`). -/
structure ClientState where
  voter_id : String
  voted_performances : List Nat
deriving Repr, DecidableEq

/-- `markAsVoted` in `VotingPage.tsx`: append the performance id to the
locally persisted list if it is not yet there. -/
def markAsVoted (cs : ClientState) (pid : Nat) : ClientState :=
  if cs.voted_performances.contains pid then cs
  else { cs with voted_performances := cs.voted_performances ++ [pid] }

/-- The outcome `handleVote` surfaces to the user: the success message,
the distinguished "You have already voted for this performance!" message,
or the generic failure message. -/
inductive VoteOutcome where
  | success
  | alreadyVoted
  | failure
deriving Repr, DecidableEq

/-- `handleVote` in `VotingPage.tsx`: first consult the locally persisted
`voted_performances` list; otherwise insert `(performance_id, voter_ip,
voter_fingerprint)` and map the storage outcome — error code `23505`
becomes the "already voted" message (and the performance is remembered
locally), any other error the generic failure message. -/
def handleVote (db : DB) (cs : ClientState) (pid : Nat) (fp : Option String) :
    DB × ClientState × VoteOutcome :=
  if cs.voted_performances.contains pid then
    (db, cs, .alreadyVoted)
  else
    match insert_performance_vote db pid cs.voter_id fp with
    | .ok db2 => (db2, markAsVoted cs pid, .success)
    | .uniqueViolation => (db, markAsVoted cs pid, .alreadyVoted)
    | .fkViolation => (db, cs, .failure)

/-- `togglePerformanceStatus` in `PopularPerformancesManagement.tsx`:
`UPDATE final_performances SET is_active = !currentStatus WHERE id = pid`. -/
def togglePerformanceStatus (db : DB) (pid : Nat) (currentStatus : Bool) : DB :=
  { db with
      performances := db.performances.map (fun p =>
        if p.id == pid then { p with is_active := !currentStatus } else p) }

/-- `handleDeletePerformance` in `PopularPerformancesManagement.tsx`:
`DELETE FROM final_performances WHERE id = pid`; the `ON DELETE CASCADE`
foreign key removes every `performance_votes` row referencing it. -/
def handleDeletePerformance (db : DB) (pid : Nat) : DB :=
  { db with
      performances := db.performances.filter (fun p => !(p.id == pid)),
      votes := db.votes.filter (fun v => !(v.performance_id == pid)) }

/-- Admin insert into `final_performances` (`handleAddPerformance`): the
primary key rejects a duplicate id, otherwise the row is appended. -/
def addPerformance (db : DB) (p : Performance) : DB :=
  if db.performances.any (fun q => q.id == p.id) then db
  else { db with performances := db.performances ++ [p] }

/-- One entry of the list `fetchPerformances` builds, mirroring the
`Performance` interface of `VotingPage.tsx`: the joined participant is
`(full_name, team_name)`, the joined category `(name, type, is_group)`. -/
structure PerformanceView where
  id : Nat
  performance_title : String
  performance_image_url : Option String
  performance_order : Int
  participant : Option (String × Option String)
  category : Option (String × String × Bool)
  vote_count : Nat
  has_voted : Bool
deriving Repr, DecidableEq

/-- `handleSaveEdit` in `AuditionsManagement.tsx`: reject when date, time
or venue is empty; otherwise update the audition row with the edited
fields and set the referenced participant's status from the result —
`qualified` to `selected`, `not_qualified` to `not_selected`, anything
else to `audition_scheduled`. -/
def handleSaveEdit (db : DB) (editingId : Nat)
    (date time venue result admin_notes : String) : DB :=
  if date == "" || time == "" || venue == "" then db
  else
    match db.auditions.find? (fun a => a.id == editingId) with
    | none => db
    | some audition =>
        let newStatus :=
          if result == "qualified" then "selected"
          else if result == "not_qualified" then "not_selected"
          else "audition_scheduled"
        { db with
            auditions := db.auditions.map (fun a =>
              if a.id == editingId then
                { a with scheduled_date := some (date ++ "T" ++ time),
                         venue := venue, result := result,
                         admin_notes := admin_notes }
              else a),
            participants := db.participants.map (fun q =>
              if q.id == audition.participant_id then
                { q with status := newStatus }
              else q) }

/-- Caller roles as the row-level-security policies distinguish them:
an authenticated user with an `admin` row, an authenticated user
without one, and the anonymous role. -/
inductive Role where
  | admin
  | authenticatedUser
  | anon
deriving Repr, DecidableEq

/-- Whether the caller satisfies `EXISTS (SELECT 1 FROM admin WHERE
admin.id = auth.uid())`. -/
def Role.is_admin : Role → Bool
  | .admin => true
  | _ => false

/-- Direct `SELECT` on `performance_votes` under the policy of
`20251118091330_protect_voter_privacy.sql`: after "Anyone can view
votes" is dropped, the only select policy is "Admins can view raw
votes", so a non-admin caller's read passes no row. -/
def select_raw_votes (r : Role) (db : DB) : List Vote :=
  if r.is_admin then db.votes else []

/-- Rewrite every voter identifier (and fingerprint) in the vote table;
used to state that the aggregation view reveals nothing about them. -/
def mapVoterTokens (f : String → String) (db : DB) : DB :=
  { db with
      votes := db.votes.map (fun v =>
        { v with voter_ip := f v.voter_ip,
                 voter_fingerprint := v.voter_fingerprint.map f }) }

/-- `SELECT` on `participants` under the base schema's only select
policy, "Participants can view own data" (`TO authenticated USING
(auth.uid() = id OR admin)`): an admin reads every row, another
authenticated caller only the row whose id equals their uid, and the
anonymous role — to which no select policy applies — none. -/
def select_participants (r : Role) (uid : Option Nat) (db : DB) :
    List Participant :=
  match r with
  | .admin => db.participants
  | .authenticatedUser => db.participants.filter (fun q => uid == some q.id)
  | .anon => []

/-- `SELECT` on `categories` under "Anyone can view categories"
(`TO authenticated, anon USING (true)`): every caller reads every row. -/
def select_categories (_ : Role) (db : DB) : List Category :=
  db.categories

/-- `SELECT` on `final_performances` under "Anyone can view active
performances" (`TO authenticated, anon USING (is_active = true OR
admin)`): an admin reads every row, everyone else the active rows. -/
def select_final_performances (r : Role) (db : DB) : List Performance :=
  if r.is_admin then db.performances
  else db.performances.filter (fun p => p.is_active)

/-- The client-side tally in `fetchPerformances`: it counts the rows
its own `SELECT performance_id FROM performance_votes` returns — under
the privacy policy every row for an admin and no row for any other
caller. -/
def voteCountAs (r : Role) (db : DB) (pid : Nat) : Nat :=
  ((select_raw_votes r db).filter (fun v => v.performance_id == pid)).length

/-- The per-row transform of `fetchPerformances`: the
`participants!inner` / `categories!inner` joins over the rows the
caller's role may read (a performance whose referenced participant or
category row is not visible to the caller is dropped by the inner
join), followed by the mapping onto the `Performance` interface, with
the caller's vote tally and the locally derived `has_voted` flag. -/
def joinPerformanceRow (r : Role) (uid : Option Nat) (db : DB)
    (cs : ClientState) (p : Performance) : Option PerformanceView :=
  match (select_participants r uid db).find?
          (fun q => q.id == p.participant_id),
        (select_categories r db).find? (fun c => c.id == p.category_id) with
  | some q, some c =>
      some { id := p.id,
             performance_title := p.performance_title,
             performance_image_url := p.performance_image_url,
             performance_order := p.performance_order,
             participant := some (q.full_name, q.team_name),
             category := some (c.name, c.type, c.is_group),
             vote_count := voteCountAs r db p.id,
             has_voted := cs.voted_performances.contains p.id }
  | _, _ => none

/-- `fetchPerformances` in `VotingPage.tsx` (the primary query path) as
executed for a caller role under the row-level-security policies:
select the `final_performances` rows the caller may read, keep
`is_active = true`, order by `performance_order`, inner-join each with
the participant and category rows the caller may read, and tally the
vote rows the caller may read.  The public page is served without
authentication, so its caller is the `anon` role, whose participant and
vote reads return no rows. -/
def fetchPerformances (r : Role) (uid : Option Nat) (db : DB)
    (cs : ClientState) : List PerformanceView :=
  (((select_final_performances r db).filter
      (fun p => p.is_active)).mergeSort
    (fun a b => decide (a.performance_order ≤ b.performance_order))).filterMap
    (joinPerformanceRow r uid db cs)

/-- The operations of the voting subsystem that mutate the database:
a public vote insert (a rejected insert leaves the state unchanged), the
admin activity toggle, the admin delete with its cascade, and the admin
creation of a performance. -/
inductive Op where
  | vote (pid : Nat) (tok : String) (fp : Option String)
  | toggle (pid : Nat) (currentStatus : Bool)
  | del (pid : Nat)
  | add (p : Performance)

/-- Apply one operation to the database state. -/
def applyOp (db : DB) : Op → DB
  | .vote pid tok fp =>
      match insert_performance_vote db pid tok fp with
      | .ok db2 => db2
      | _ => db
  | .toggle pid cur => togglePerformanceStatus db pid cur
  | .del pid => handleDeletePerformance db pid
  | .add p => addPerformance db p

/-- Database states reachable from the empty database by the
subsystem's operations. -/
inductive Reachable : DB → Prop where
  | init : Reachable DB.empty
  | step {db : DB} (op : Op) : Reachable db → Reachable (applyOp db op)

/-- The storage invariant: at most one `performance_votes` row per
`(performance_id, voter_ip)` pair. -/
def VoteUnique (db : DB) : Prop :=
  List.Pairwise
    (fun a b => ¬(a.performance_id = b.performance_id ∧ a.voter_ip = b.voter_ip))
    db.votes

/-! ### Concrete states used by the witnesses -/

/-- A performance row used by the concrete witness states. -/
def witnessPerformance : Performance :=
  ⟨1, 20, 10, "Melody of Dreams", none, 1, true⟩

/-- A concrete state with one performance and no votes. -/
def witnessDB0 : DB := applyOp DB.empty (.add witnessPerformance)

/-- A concrete reachable state: one performance added, one vote cast. -/
def witnessDB : DB := applyOp witnessDB0 (.vote 1 "abc123" none)

/-- The state after the second, distinct voter's vote in the witness. -/
def witnessDB2 : DB :=
  { witnessDB with
      votes := witnessDB.votes ++ [⟨1, 1, "xyz789", none⟩],
      next_id := 2 }

/-- A concrete state with a category, participants, and three
performances (two active, one inactive), for the listing witnesses. -/
def listingDB : DB :=
  { DB.empty with
      categories := [⟨10, "Solo Singing", "singing", false⟩],
      participants := [⟨20, "Alice", none, 10, "selected"⟩,
                       ⟨21, "Bob", none, 10, "selected"⟩],
      performances := [⟨2, 21, 10, "Second Song", none, 2, true⟩,
                       ⟨1, 20, 10, "Melody of Dreams", none, 1, true⟩,
                       ⟨3, 20, 10, "Hidden Song", none, 3, false⟩],
      votes := [⟨100, 1, "abc123", none⟩],
      next_id := 101 }

/-- A concrete state whose only performance is inactive, for the C8
counterexample. -/
def inactiveDB : DB :=
  { DB.empty with
      performances := [⟨2, 21, 10, "Inactive Show", none, 1, false⟩] }

/-- A concrete state with one scheduled audition, for the C10 witness. -/
def auditionDB : DB :=
  { DB.empty with
      participants := [⟨20, "Alice", none, 10, "audition_scheduled"⟩,
                       ⟨21, "Bob", none, 10, "pending"⟩],
      auditions := [⟨30, 20, 10, none, "Main Hall", "pending", ""⟩] }

/-! ### Helper lemmas about the aggregation view -/

/-- Reading the view at an id is a lookup of the first performance row
with that id, paired with the vote tally of the id. -/
theorem performance_vote_counts_eq_find (db : DB) (pid : Nat) :
    performance_vote_counts db pid =
      Option.map (fun _ => voteCount db pid)
        (db.performances.find? (fun p => p.id == pid)) := by
  unfold performance_vote_counts performance_vote_counts_rows
  rw [List.find?_map, Option.map_map]
  have hpred : ((fun row : VoteCountRow => row.id == pid) ∘ fun fp : Performance =>
      (⟨fp.id, fp.participant_id, fp.category_id, fp.performance_title,
        fp.performance_order, fp.is_active, voteCount db fp.id⟩ : VoteCountRow)) =
      (fun p : Performance => p.id == pid) := rfl
  rw [hpred]
  cases hfind : db.performances.find? (fun p => p.id == pid) with
  | none => rfl
  | some p =>
      have hid : p.id = pid := by simpa using List.find?_some hfind
      simp [Function.comp, hid]

/-- If some performance row carries the id, the view read yields the
tally. -/
theorem performance_vote_counts_of_any {db : DB} {pid : Nat}
    (h : db.performances.any (fun p => p.id == pid) = true) :
    performance_vote_counts db pid = some (voteCount db pid) := by
  rw [performance_vote_counts_eq_find]
  obtain ⟨p, hp, hpid⟩ := List.any_eq_true.mp h
  cases hfind : db.performances.find? (fun p => p.id == pid) with
  | none => exact absurd hpid (List.find?_eq_none.mp hfind p hp)
  | some r => rfl

/-- If no performance row carries the id, the view read yields `none`. -/
theorem performance_vote_counts_none {db : DB} {pid : Nat}
    (h : ∀ p ∈ db.performances, ¬(p.id = pid)) :
    performance_vote_counts db pid = none := by
  rw [performance_vote_counts_eq_find]
  rw [List.find?_eq_none.mpr (fun p hp => by simpa using h p hp)]
  rfl

/-- The view read depends only on the performance table and the tally of
the id being read. -/
theorem performance_vote_counts_congr {db db2 : DB} {q : Nat}
    (hperf : db2.performances = db.performances)
    (hcount : voteCount db2 q = voteCount db q) :
    performance_vote_counts db2 q = performance_vote_counts db q := by
  rw [performance_vote_counts_eq_find, performance_vote_counts_eq_find, hperf,
    hcount]

/-! ### Helper lemmas about the uniqueness invariant -/

/-- A successful storage insert preserves the uniqueness invariant: the
unique index admitted the row only because no row with its
`(performance_id, voter_ip)` pair was present. -/
theorem voteUnique_insert {db db2 : DB} {pid : Nat} {tok : String}
    {fp : Option String} (h : VoteUnique db)
    (hok : insert_performance_vote db pid tok fp = .ok db2) :
    VoteUnique db2 := by
  unfold insert_performance_vote at hok
  by_cases h1 : db.votes.any
      (fun v => v.performance_id == pid && v.voter_ip == tok) = true
  · rw [if_pos h1] at hok; cases hok
  · rw [if_neg h1] at hok
    by_cases h2 : db.performances.any (fun p => p.id == pid) = true
    · rw [if_pos h2] at hok
      cases hok
      unfold VoteUnique
      rw [List.pairwise_append]
      refine ⟨h, by simp, ?_⟩
      intro a ha b hb
      simp only [List.mem_singleton] at hb
      subst hb
      have h1f : db.votes.any
          (fun v => v.performance_id == pid && v.voter_ip == tok) = false := by
        simpa using h1
      have := List.any_eq_false.mp h1f a ha
      simpa using this
    · rw [if_neg h2] at hok; cases hok

/-- Every operation preserves the uniqueness invariant. -/
theorem voteUnique_applyOp {db : DB} (op : Op) (h : VoteUnique db) :
    VoteUnique (applyOp db op) := by
  cases op with
  | vote pid tok fp =>
      cases hins : insert_performance_vote db pid tok fp with
      | ok db2 =>
          have heq : applyOp db (.vote pid tok fp) = db2 := by
            simp [applyOp, hins]
          rw [heq]
          exact voteUnique_insert h hins
      | uniqueViolation =>
          have heq : applyOp db (.vote pid tok fp) = db := by
            simp [applyOp, hins]
          rw [heq]; exact h
      | fkViolation =>
          have heq : applyOp db (.vote pid tok fp) = db := by
            simp [applyOp, hins]
          rw [heq]; exact h
  | toggle pid cur => exact h
  | del pid =>
      have heq : applyOp db (.del pid) = handleDeletePerformance db pid := rfl
      rw [heq]
      exact List.Pairwise.sublist (List.filter_sublist _) h
  | add p =>
      by_cases hc : db.performances.any (fun q => q.id == p.id) = true
      · have heq : applyOp db (.add p) = db := by
          simp [applyOp, addPerformance, hc]
        rw [heq]; exact h
      · have heq : applyOp db (.add p) =
            { db with performances := db.performances ++ [p] } := by
          simp [applyOp, addPerformance, hc]
        rw [heq]; exact h

/-- Every reachable database state satisfies the uniqueness invariant. -/
theorem voteUnique_reachable {db : DB} (h : Reachable db) : VoteUnique db := by
  induction h with
  | init => exact List.Pairwise.nil
  | step op _ ih => exact voteUnique_applyOp op ih

/-! ### Claims -/

/-- C1: every reachable database state has at most one `performance_votes`
row per `(performance_id, voter_ip)` pair, and an insert that would create
a second row for a pair already present is rejected by the uniqueness
constraint with the state — in particular the pair's single row —
preserved. -/
theorem claim1_vote_uniqueness_invariant {db : DB} (h : Reachable db) :
    VoteUnique db ∧
    ∀ pid tok fp,
      db.votes.any (fun v => v.performance_id == pid && v.voter_ip == tok) = true →
        insert_performance_vote db pid tok fp = .uniqueViolation ∧
        applyOp db (.vote pid tok fp) = db := by
  refine ⟨voteUnique_reachable h, ?_⟩
  intro pid tok fp hdup
  have hins : insert_performance_vote db pid tok fp = .uniqueViolation := by
    unfold insert_performance_vote
    rw [if_pos hdup]
  refine ⟨hins, ?_⟩
  simp [applyOp, hins]

theorem claim1_vote_uniqueness_invariant_witness :
    VoteUnique witnessDB ∧
    ∀ pid tok fp,
      witnessDB.votes.any
          (fun v => v.performance_id == pid && v.voter_ip == tok) = true →
        insert_performance_vote witnessDB pid tok fp = .uniqueViolation ∧
        applyOp witnessDB (.vote pid tok fp) = witnessDB :=
  claim1_vote_uniqueness_invariant
    (Reachable.step _ (Reachable.step _ Reachable.init))

/-- C3: a successful vote insert increases the vote count of exactly the
voted performance by one — as seen both by the raw tally and by a
subsequent read of the aggregation view — and leaves every other record
unchanged: every other performance's count, the performance, participant,
category and audition tables, and the existing vote rows. -/
theorem claim3_insert_frame {db db2 : DB} {pid : Nat} {tok : String}
    {fp : Option String}
    (h : insert_performance_vote db pid tok fp = .ok db2) :
    voteCount db2 pid = voteCount db pid + 1 ∧
    (∀ q, ¬(q = pid) → voteCount db2 q = voteCount db q) ∧
    performance_vote_counts db2 pid = some (voteCount db pid + 1) ∧
    (∀ q, ¬(q = pid) →
      performance_vote_counts db2 q = performance_vote_counts db q) ∧
    db2.performances = db.performances ∧
    db2.participants = db.participants ∧
    db2.categories = db.categories ∧
    db2.auditions = db.auditions ∧
    ∃ w : Vote, w.performance_id = pid ∧ w.voter_ip = tok ∧
      db2.votes = db.votes ++ [w] := by
  unfold insert_performance_vote at h
  by_cases h1 : db.votes.any
      (fun v => v.performance_id == pid && v.voter_ip == tok) = true
  · rw [if_pos h1] at h; cases h
  rw [if_neg h1] at h
  by_cases h2 : db.performances.any (fun p => p.id == pid) = true
  swap
  · rw [if_neg h2] at h; cases h
  rw [if_pos h2] at h
  cases h
  have hbump : voteCount
      { db with votes := db.votes ++ [⟨db.next_id, pid, tok, fp⟩],
                next_id := db.next_id + 1 } pid = voteCount db pid + 1 := by
    simp [voteCount, List.filter_append]
  have hother : ∀ q, ¬(q = pid) → voteCount
      { db with votes := db.votes ++ [⟨db.next_id, pid, tok, fp⟩],
                next_id := db.next_id + 1 } q = voteCount db q := by
    intro q hq
    have hne : ¬pid = q := fun hpq => hq hpq.symm
    simp [voteCount, List.filter_append, hne]
  refine ⟨hbump, hother, ?_, ?_, rfl, rfl, rfl, rfl,
    ⟨⟨db.next_id, pid, tok, fp⟩, rfl, rfl, rfl⟩⟩
  · rw [performance_vote_counts_of_any (by simpa using h2), hbump]
  · intro q hq
    exact performance_vote_counts_congr rfl (hother q hq)

theorem claim3_insert_frame_witness :
    insert_performance_vote witnessDB 1 "xyz789" none = .ok witnessDB2 ∧
    voteCount witnessDB2 1 = voteCount witnessDB 1 + 1 :=
  ⟨by decide,
    (@claim3_insert_frame witnessDB witnessDB2 1 "xyz789" none (by decide)).1⟩

/-- C7: deleting a performance removes its row and, by cascade, every
vote row referencing it, keeps every other vote row, and a subsequent
aggregation read of the deleted id reports the performance as absent
(`none`) rather than a zero count. -/
theorem claim7_delete_cascade (db : DB) (pid : Nat) :
    (∀ v ∈ (handleDeletePerformance db pid).votes, ¬(v.performance_id = pid)) ∧
    (∀ v ∈ db.votes, ¬(v.performance_id = pid) →
      v ∈ (handleDeletePerformance db pid).votes) ∧
    (∀ p ∈ (handleDeletePerformance db pid).performances, ¬(p.id = pid)) ∧
    performance_vote_counts (handleDeletePerformance db pid) pid = none := by
  refine ⟨?_, ?_, ?_, ?_⟩
  · intro v hv
    simp only [handleDeletePerformance] at hv
    have := (List.mem_filter.mp hv).2
    simpa using this
  · intro v hv hne
    simp only [handleDeletePerformance]
    exact List.mem_filter.mpr ⟨hv, by simpa using hne⟩
  · intro p hp
    simp only [handleDeletePerformance] at hp
    have := (List.mem_filter.mp hp).2
    simpa using this
  · apply performance_vote_counts_none
    intro p hp
    simp only [handleDeletePerformance] at hp
    have := (List.mem_filter.mp hp).2
    simpa using this

/-- C10: saving an audition edit sets the referenced participant's status
as the exact function of the audition result — `qualified` to `selected`,
`not_qualified` to `not_selected`, anything else to `audition_scheduled` —
and changes no other participant's status nor any other table the claim
ranges over. -/
theorem claim10_audition_result_sets_status
    {db : DB} {editingId : Nat} {date time venue result admin_notes : String}
    {a : Audition}
    (hd : (date == "") = false) (ht : (time == "") = false)
    (hv : (venue == "") = false)
    (ha : db.auditions.find? (fun x => x.id == editingId) = some a) :
    ((handleSaveEdit db editingId date time venue result admin_notes).participants.map
        (fun q => (q.id, q.status)) =
      db.participants.map (fun q => (q.id,
        if q.id = a.participant_id then
          (if result = "qualified" then "selected"
           else if result = "not_qualified" then "not_selected"
           else "audition_scheduled")
        else q.status))) ∧
    ((handleSaveEdit db editingId date time venue result admin_notes).participants.map
        (fun q => (q.id, q.full_name, q.team_name, q.category_id)) =
      db.participants.map
        (fun q => (q.id, q.full_name, q.team_name, q.category_id))) ∧
    (handleSaveEdit db editingId date time venue result admin_notes).votes =
      db.votes ∧
    (handleSaveEdit db editingId date time venue result admin_notes).performances =
      db.performances ∧
    (handleSaveEdit db editingId date time venue result admin_notes).categories =
      db.categories := by
  have hrw : handleSaveEdit db editingId date time venue result admin_notes =
      { db with
          auditions := db.auditions.map (fun x =>
            if x.id == editingId then
              { x with scheduled_date := some (date ++ "T" ++ time),
                       venue := venue, result := result,
                       admin_notes := admin_notes }
            else x),
          participants := db.participants.map (fun q =>
            if q.id == a.participant_id then
              { q with status :=
                  if result == "qualified" then "selected"
                  else if result == "not_qualified" then "not_selected"
                  else "audition_scheduled" }
            else q) } := by
    unfold handleSaveEdit
    rw [hd, ht, hv, ha]
    rfl
  rw [hrw]
  refine ⟨?_, ?_, rfl, rfl, rfl⟩
  · rw [List.map_map]
    apply List.map_congr_left
    intro q _
    by_cases hqa : q.id = a.participant_id <;>
      by_cases h1 : result = "qualified" <;>
      by_cases h2 : result = "not_qualified" <;>
      simp [hqa, h1, h2]
  · rw [List.map_map]
    apply List.map_congr_left
    intro q _
    by_cases hqa : q.id = a.participant_id <;> simp [hqa]

/-- C2: from a state where the performance exists, the voter has no
stored vote for it and the client has not marked it voted, calling
`handleVote` twice in sequence changes state exactly once — the first
call succeeds, the second is rejected with the distinguished
"already voted" outcome, the database is unchanged by the second call,
and exactly one vote row for the `(performance, voter)` pair is stored
afterwards. -/
theorem claim2_double_vote_idempotent {db : DB} {cs : ClientState} {pid : Nat}
    {fp fp2 : Option String}
    (hP : db.performances.any (fun p => p.id == pid) = true)
    (hnew : db.votes.any
      (fun v => v.performance_id == pid && v.voter_ip == cs.voter_id) = false)
    (hmark : cs.voted_performances.contains pid = false) :
    (handleVote db cs pid fp).2.2 = .success ∧
    (handleVote (handleVote db cs pid fp).1
      (handleVote db cs pid fp).2.1 pid fp2).2.2 = .alreadyVoted ∧
    (handleVote (handleVote db cs pid fp).1
      (handleVote db cs pid fp).2.1 pid fp2).1 = (handleVote db cs pid fp).1 ∧
    ((handleVote (handleVote db cs pid fp).1
        (handleVote db cs pid fp).2.1 pid fp2).1.votes.filter
      (fun v => v.performance_id == pid && v.voter_ip == cs.voter_id)).length
      = 1 := by
  have h1 : handleVote db cs pid fp =
      ({ db with
           votes := db.votes ++ [⟨db.next_id, pid, cs.voter_id, fp⟩],
           next_id := db.next_id + 1 },
       { cs with voted_performances := cs.voted_performances ++ [pid] },
       .success) := by
    unfold handleVote insert_performance_vote markAsVoted
    rw [hmark, hnew, hP]
    rfl
  have hcontains :
      (cs.voted_performances ++ [pid]).contains pid = true := by
    simp
  have h2 : handleVote (handleVote db cs pid fp).1
      (handleVote db cs pid fp).2.1 pid fp2 =
      ((handleVote db cs pid fp).1, (handleVote db cs pid fp).2.1,
       .alreadyVoted) := by
    rw [h1]
    unfold handleVote
    rw [show ({ cs with voted_performances := cs.voted_performances ++ [pid] } :
      ClientState).voted_performances = cs.voted_performances ++ [pid] from rfl]
    rw [hcontains]
    rfl
  have hfe : db.votes.filter
      (fun v => v.performance_id == pid && v.voter_ip == cs.voter_id) = [] := by
    rw [List.filter_eq_nil_iff]
    intro a ha
    exact List.any_eq_false.mp hnew a ha
  refine ⟨by rw [h1], by rw [h2], by rw [h2], ?_⟩
  rw [h2, h1]
  simp [List.filter_append, hfe]

theorem claim2_double_vote_idempotent_witness :
    (handleVote witnessDB ⟨"xyz789", []⟩ 1 none).2.2 = .success ∧
    (handleVote (handleVote witnessDB ⟨"xyz789", []⟩ 1 none).1
      (handleVote witnessDB ⟨"xyz789", []⟩ 1 none).2.1 1 none).2.2
      = .alreadyVoted ∧
    (handleVote (handleVote witnessDB ⟨"xyz789", []⟩ 1 none).1
      (handleVote witnessDB ⟨"xyz789", []⟩ 1 none).2.1 1 none).1
      = (handleVote witnessDB ⟨"xyz789", []⟩ 1 none).1 ∧
    ((handleVote (handleVote witnessDB ⟨"xyz789", []⟩ 1 none).1
        (handleVote witnessDB ⟨"xyz789", []⟩ 1 none).2.1 1 none).1.votes.filter
      (fun v => v.performance_id == 1 && v.voter_ip == "xyz789")).length = 1 :=
  claim2_double_vote_idempotent (by decide) (by decide) (by decide)

/-- Folding a sequence of distinct fresh voters over the vote operation
adds exactly one vote row for the performance per voter, and leaves the
performance table unchanged. -/
theorem voteAll_count (toks : List String) (db : DB) (pid : Nat)
    (hP : db.performances.any (fun p => p.id == pid) = true)
    (hnodup : toks.Nodup)
    (hfresh : ∀ t ∈ toks, db.votes.any
      (fun v => v.performance_id == pid && v.voter_ip == t) = false) :
    (toks.foldl (fun d t => applyOp d (.vote pid t none)) db).performances
      = db.performances ∧
    voteCount (toks.foldl (fun d t => applyOp d (.vote pid t none)) db) pid
      = voteCount db pid + toks.length := by
  induction toks generalizing db with
  | nil => exact ⟨rfl, rfl⟩
  | cons t ts ih =>
      have ht0 : db.votes.any
          (fun v => v.performance_id == pid && v.voter_ip == t) = false :=
        hfresh t (List.mem_cons_self t ts)
      have hins : insert_performance_vote db pid t none =
          .ok { db with
                  votes := db.votes ++ [⟨db.next_id, pid, t, none⟩],
                  next_id := db.next_id + 1 } := by
        unfold insert_performance_vote
        rw [ht0, hP]
        rfl
      have happ : applyOp db (.vote pid t none) =
          { db with
              votes := db.votes ++ [⟨db.next_id, pid, t, none⟩],
              next_id := db.next_id + 1 } := by
        simp [applyOp, hins]
      have hstep : (t :: ts).foldl (fun d s => applyOp d (.vote pid s none)) db
          = ts.foldl (fun d s => applyOp d (.vote pid s none))
              (applyOp db (.vote pid t none)) := rfl
      have htnotmem : t ∉ ts := (List.nodup_cons.mp hnodup).1
      have hfresh1 : ∀ s ∈ ts,
          ({ db with
               votes := db.votes ++ [⟨db.next_id, pid, t, none⟩],
               next_id := db.next_id + 1 } : DB).votes.any
            (fun v => v.performance_id == pid && v.voter_ip == s) = false := by
        intro s hs
        have hne : ¬t = s := fun h => htnotmem (h ▸ hs)
        have hbase := hfresh s (List.mem_cons_of_mem t hs)
        simp only [List.any_append, Bool.or_eq_false_iff]
        exact ⟨hbase, by simp [hne]⟩
      obtain ⟨hperf1, hcount1⟩ := ih
        ({ db with
             votes := db.votes ++ [⟨db.next_id, pid, t, none⟩],
             next_id := db.next_id + 1 }) hP (List.nodup_cons.mp hnodup).2 hfresh1
      rw [hstep, happ]
      refine ⟨hperf1, ?_⟩
      rw [hcount1]
      have hone : voteCount
          { db with
              votes := db.votes ++ [⟨db.next_id, pid, t, none⟩],
              next_id := db.next_id + 1 } pid = voteCount db pid + 1 := by
        simp [voteCount, List.filter_append]
      rw [hone]
      simp [Nat.add_assoc, Nat.add_comm 1 ts.length]

/-- C4: from a state where the performance exists and has no votes, a
set of pairwise-distinct voter tokens each voting once yields an
aggregated vote count equal to the number of tokens. -/
theorem claim4_distinct_voters_count {db : DB} {pid : Nat} {toks : List String}
    (hP : db.performances.any (fun p => p.id == pid) = true)
    (hnodup : toks.Nodup)
    (h0 : voteCount db pid = 0) :
    performance_vote_counts
      (toks.foldl (fun d t => applyOp d (.vote pid t none)) db) pid
      = some toks.length := by
  have hnil : db.votes.filter (fun v => v.performance_id == pid) = [] := by
    have := h0
    rwa [voteCount, List.length_eq_zero] at this
  have hfresh : ∀ t ∈ toks, db.votes.any
      (fun v => v.performance_id == pid && v.voter_ip == t) = false := by
    intro t _
    rw [List.any_eq_false]
    intro v hv hcontr
    have hvpid : (v.performance_id == pid) = true := by
      have := hcontr
      simp only [Bool.and_eq_true] at this
      exact this.1
    have hmem : v ∈ db.votes.filter (fun v => v.performance_id == pid) :=
      List.mem_filter.mpr ⟨hv, hvpid⟩
    rw [hnil] at hmem
    exact absurd hmem (List.not_mem_nil v)
  obtain ⟨hperf, hcount⟩ := voteAll_count toks db pid hP hnodup hfresh
  have hany : (toks.foldl (fun d t => applyOp d (.vote pid t none))
      db).performances.any (fun p => p.id == pid) = true := by
    rw [hperf]; exact hP
  rw [performance_vote_counts_of_any hany, hcount, h0]
  rw [Nat.zero_add]

theorem claim4_distinct_voters_count_witness :
    performance_vote_counts
      (["abc123", "xyz789"].foldl
        (fun d t => applyOp d (.vote 1 t none)) witnessDB0) 1 = some 2 :=
  claim4_distinct_voters_count (by decide) (by decide) (by decide)

theorem claim10_audition_result_sets_status_witness :
    ((handleSaveEdit auditionDB 30 "2025-01-01" "10:00" "Main Hall" "qualified"
        "").participants.map (fun q => (q.id, q.status)) =
      auditionDB.participants.map (fun q => (q.id,
        if q.id = 20 then
          (if "qualified" = "qualified" then "selected"
           else if "qualified" = "not_qualified" then "not_selected"
           else "audition_scheduled")
        else q.status))) ∧
    ((handleSaveEdit auditionDB 30 "2025-01-01" "10:00" "Main Hall" "qualified"
        "").participants.map (fun q => (q.id, q.full_name, q.team_name, q.category_id)) =
      auditionDB.participants.map
        (fun q => (q.id, q.full_name, q.team_name, q.category_id))) ∧
    (handleSaveEdit auditionDB 30 "2025-01-01" "10:00" "Main Hall" "qualified"
        "").votes = auditionDB.votes ∧
    (handleSaveEdit auditionDB 30 "2025-01-01" "10:00" "Main Hall" "qualified"
        "").performances = auditionDB.performances ∧
    (handleSaveEdit auditionDB 30 "2025-01-01" "10:00" "Main Hall" "qualified"
        "").categories = auditionDB.categories :=
  @claim10_audition_result_sets_status auditionDB 30 "2025-01-01" "10:00"
    "Main Hall" "qualified" "" ⟨30, 20, 10, none, "Main Hall", "pending", ""⟩
    (by decide) (by decide) (by decide) (by decide)

/-! ### Helper lemmas about the public listing -/

/-- Any performance row a caller's select returns is a row of the
table. -/
theorem mem_of_mem_select_final_performances {r : Role} {db : DB}
    {p : Performance} (h : p ∈ select_final_performances r db) :
    p ∈ db.performances := by
  unfold select_final_performances at h
  split at h
  · exact h
  · exact (List.mem_filter.mp h).1

/-- A view produced by the join row transform carries the performance
row's id. -/
theorem joinPerformanceRow_id {r : Role} {uid : Option Nat} {db : DB}
    {cs : ClientState} {p : Performance} {v : PerformanceView}
    (h : joinPerformanceRow r uid db cs p = some v) : v.id = p.id := by
  unfold joinPerformanceRow at h
  cases hq : (select_participants r uid db).find?
      (fun q => q.id == p.participant_id) with
  | none =>
      cases hc : (select_categories r db).find?
          (fun c => c.id == p.category_id) with
      | none => rw [hq, hc] at h; cases h
      | some c => rw [hq, hc] at h; cases h
  | some q =>
      cases hc : (select_categories r db).find?
          (fun c => c.id == p.category_id) with
      | none => rw [hq, hc] at h; cases h
      | some c =>
          rw [hq, hc] at h
          cases h
          rfl

/-- A view in the listing comes from an active performance row of the
table whose join succeeded for the caller. -/
theorem mem_fetchPerformances {r : Role} {uid : Option Nat} {db : DB}
    {cs : ClientState} {v : PerformanceView}
    (h : v ∈ fetchPerformances r uid db cs) :
    ∃ p ∈ db.performances, p.is_active = true ∧
      joinPerformanceRow r uid db cs p = some v := by
  unfold fetchPerformances at h
  obtain ⟨p, hp, hjoin⟩ := List.mem_filterMap.mp h
  have hmem : p ∈ (select_final_performances r db).filter
      (fun p => p.is_active) :=
    ((List.mergeSort_perm _ _).mem_iff).mp hp
  obtain ⟨hmem2, hact⟩ := List.mem_filter.mp hmem
  exact ⟨p, mem_of_mem_select_final_performances hmem2,
    by simpa using hact, hjoin⟩

/-- The anonymous caller's listing is empty in every database state:
its `participants` read returns no row, so the inner join drops every
performance. -/
theorem fetchPerformances_anon_eq_nil (uid : Option Nat) (db : DB)
    (cs : ClientState) : fetchPerformances .anon uid db cs = [] := by
  unfold fetchPerformances
  rw [List.filterMap_eq_nil_iff]
  intro p _
  rfl

/-- C5, evaluated at the failing input: in a state with two active
performances, their participants and categories, and one stored vote,
the public page's caller — the anonymous role — can read no participant
row and no vote row, so the public listing comes out empty instead of
the claimed ordered sequence of named and counted performances. -/
theorem claim5_public_listing_empty_for_anon :
    (listingDB.performances.filter (fun p => p.is_active)).map
      (fun p => p.id) = [2, 1] ∧
    voteCount listingDB 1 = 1 ∧
    select_participants .anon none listingDB = [] ∧
    select_raw_votes .anon listingDB = [] ∧
    fetchPerformances .anon none listingDB ⟨"abc123", []⟩ = [] :=
  ⟨by decide, by decide, rfl, rfl,
    fetchPerformances_anon_eq_nil none listingDB ⟨"abc123", []⟩⟩

/-- Toggling a performance's activity never changes what the
aggregation view reports for any id: the vote table is untouched and the
view keys rows by id only. -/
theorem performance_vote_counts_toggle (db : DB) (pid q : Nat) (b : Bool) :
    performance_vote_counts (togglePerformanceStatus db pid b) q
      = performance_vote_counts db q := by
  rw [performance_vote_counts_eq_find, performance_vote_counts_eq_find]
  have hvc : voteCount (togglePerformanceStatus db pid b) q
      = voteCount db q := rfl
  rw [hvc]
  unfold togglePerformanceStatus
  rw [List.find?_map]
  have hpred : ((fun p : Performance => p.id == q) ∘ (fun p : Performance =>
      if p.id == pid then { p with is_active := !b } else p))
      = (fun p : Performance => p.id == q) := by
    funext p
    by_cases h : p.id = pid <;> simp [h]
  rw [hpred, Option.map_map]
  rfl

/-- C6 counterexample: deactivating and then reactivating performance 1
in a state where it holds one vote leaves it active with a stored count
of one, yet the public listing after reactivation shows nothing at all —
the performance is not "shown again with the same value" to the public
caller. -/
theorem claim6_counterexample :
    voteCount listingDB 1 = 1 ∧
    ((togglePerformanceStatus (togglePerformanceStatus listingDB 1 true) 1
        false).performances.any (fun p => p.id == 1 && p.is_active))
      = true ∧
    fetchPerformances .anon none
      (togglePerformanceStatus (togglePerformanceStatus listingDB 1 true)
        1 false) ⟨"abc123", []⟩ = [] :=
  ⟨by decide, by decide,
    fetchPerformances_anon_eq_nil none
      (togglePerformanceStatus (togglePerformanceStatus listingDB 1 true)
        1 false) ⟨"abc123", []⟩⟩

/-- C6 amended: deactivating a performance removes it from the votable
listing for every caller and leaves every vote row unchanged through
deactivation and reactivation, so the aggregation view reports the same
preserved count while deactivated and again after reactivation.  (The
public listing itself never displays the count: see the
counterexample.) -/
theorem claim6_toggle_preserves_votes (r : Role) (uid : Option Nat)
    {db : DB} {cs : ClientState} {pid : Nat}
    (hp : ∃ p ∈ db.performances, p.id = pid) :
    (∀ v ∈ fetchPerformances r uid (togglePerformanceStatus db pid true) cs,
      ¬(v.id = pid)) ∧
    (togglePerformanceStatus db pid true).votes = db.votes ∧
    performance_vote_counts (togglePerformanceStatus db pid true) pid
      = performance_vote_counts db pid ∧
    (togglePerformanceStatus (togglePerformanceStatus db pid true) pid
      false).votes = db.votes ∧
    performance_vote_counts
      (togglePerformanceStatus (togglePerformanceStatus db pid true) pid
        false) pid = some (voteCount db pid) := by
  refine ⟨?_, rfl, performance_vote_counts_toggle db pid pid true, rfl, ?_⟩
  · intro v hv hvid
    obtain ⟨p, hmem, hact, hjoin⟩ := mem_fetchPerformances hv
    have hpid : p.id = pid := by
      rw [← joinPerformanceRow_id hjoin, hvid]
    have hmem2 := hmem
    unfold togglePerformanceStatus at hmem2
    simp only [List.mem_map] at hmem2
    obtain ⟨p0, _, hp0⟩ := hmem2
    by_cases h0 : (p0.id == pid) = true
    · rw [if_pos h0] at hp0
      rw [← hp0] at hact
      simp at hact
    · rw [if_neg h0] at hp0
      rw [← hp0] at hpid
      simp [hpid] at h0
  · obtain ⟨p, hmem, hpid⟩ := hp
    rw [performance_vote_counts_toggle (togglePerformanceStatus db pid true)
        pid pid false,
      performance_vote_counts_toggle db pid pid true]
    apply performance_vote_counts_of_any
    exact List.any_eq_true.mpr ⟨p, hmem, by simp [hpid]⟩

theorem claim6_toggle_preserves_votes_witness :
    (∀ v ∈ fetchPerformances .admin none
        (togglePerformanceStatus listingDB 1 true) ⟨"abc123", []⟩,
      ¬(v.id = 1)) ∧
    (togglePerformanceStatus listingDB 1 true).votes = listingDB.votes ∧
    performance_vote_counts (togglePerformanceStatus listingDB 1 true) 1
      = performance_vote_counts listingDB 1 ∧
    (togglePerformanceStatus (togglePerformanceStatus listingDB 1 true) 1
      false).votes = listingDB.votes ∧
    performance_vote_counts
      (togglePerformanceStatus (togglePerformanceStatus listingDB 1 true) 1
        false) 1 = some (voteCount listingDB 1) :=
  claim6_toggle_preserves_votes .admin none (by decide)

/-- C8 counterexample: in a state whose only performance is inactive, a
vote for it is accepted by the vote-recording path — the outcome is
`success` and a vote row is stored — refuting that a vote for an
inactive performance is rejected at vote-recording time. -/
theorem claim8_counterexample :
    (inactiveDB.performances.any (fun p => p.id == 2 && !p.is_active)) = true ∧
    (handleVote inactiveDB ⟨"abc123", []⟩ 2 none).2.2 = .success ∧
    ((handleVote inactiveDB ⟨"abc123", []⟩ 2 none).1.votes.filter
      (fun v => v.performance_id == 2)).length = 1 := by
  decide

/-- C8 amended: a vote for a performance id no `final_performances` row
carries is rejected by the foreign key — a generic failure with no state
change — but a vote for any existing performance, active or not, is
accepted and stored: activity is enforced only by client-side filtering,
not at vote-recording time. -/
theorem claim8_amended_referential_check {db : DB} {cs : ClientState}
    {pid : Nat} {fp : Option String}
    (hmark : cs.voted_performances.contains pid = false)
    (hnew : db.votes.any
      (fun v => v.performance_id == pid && v.voter_ip == cs.voter_id) = false) :
    (db.performances.any (fun p => p.id == pid) = false →
      (handleVote db cs pid fp).2.2 = .failure ∧
      (handleVote db cs pid fp).1 = db) ∧
    (db.performances.any (fun p => p.id == pid) = true →
      (handleVote db cs pid fp).2.2 = .success ∧
      ((handleVote db cs pid fp).1.votes.filter
        (fun v => v.performance_id == pid && v.voter_ip == cs.voter_id)).length
        = 1) := by
  constructor
  · intro hex
    have h1 : handleVote db cs pid fp = (db, cs, .failure) := by
      unfold handleVote insert_performance_vote
      rw [hmark, hnew, hex]
      rfl
    rw [h1]
    exact ⟨rfl, rfl⟩
  · intro hex
    have h1 : handleVote db cs pid fp =
        ({ db with
             votes := db.votes ++ [⟨db.next_id, pid, cs.voter_id, fp⟩],
             next_id := db.next_id + 1 },
         { cs with voted_performances := cs.voted_performances ++ [pid] },
         .success) := by
      unfold handleVote insert_performance_vote markAsVoted
      rw [hmark, hnew, hex]
      rfl
    have hfe : db.votes.filter
        (fun v => v.performance_id == pid && v.voter_ip == cs.voter_id)
        = [] := by
      rw [List.filter_eq_nil_iff]
      intro a ha
      exact List.any_eq_false.mp hnew a ha
    rw [h1]
    exact ⟨rfl, by simp [List.filter_append, hfe]⟩

theorem claim8_amended_referential_check_witness :
    (inactiveDB.performances.any (fun p => p.id == 2) = false →
      (handleVote inactiveDB ⟨"abc123", []⟩ 2 none).2.2 = .failure ∧
      (handleVote inactiveDB ⟨"abc123", []⟩ 2 none).1 = inactiveDB) ∧
    (inactiveDB.performances.any (fun p => p.id == 2) = true →
      (handleVote inactiveDB ⟨"abc123", []⟩ 2 none).2.2 = .success ∧
      ((handleVote inactiveDB ⟨"abc123", []⟩ 2 none).1.votes.filter
        (fun v => v.performance_id == 2 && v.voter_ip == "abc123")).length
        = 1) :=
  claim8_amended_referential_check (by decide) (by decide)

/-- Rewriting the voter tokens does not change any vote tally: the
tally reads only the `performance_id` column. -/
theorem voteCount_mapVoterTokens (f : String → String) (db : DB) (pid : Nat) :
    voteCount (mapVoterTokens f db) pid = voteCount db pid := by
  unfold voteCount mapVoterTokens
  rw [List.filter_map]
  rw [List.length_map]
  rfl

/-- C9: for a non-admin caller a direct read of the raw vote table
passes no row at the access-control boundary, and the aggregation view
is invariant under any rewriting of the voter tokens and fingerprints —
it exposes vote counts only, nothing about the stored identifiers. -/
theorem claim9_voter_privacy {db : DB} {r : Role} (f : String → String)
    (h : r.is_admin = false) :
    select_raw_votes r db = [] ∧
    performance_vote_counts_rows (mapVoterTokens f db)
      = performance_vote_counts_rows db ∧
    ∀ pid, performance_vote_counts (mapVoterTokens f db) pid
      = performance_vote_counts db pid := by
  refine ⟨?_, ?_, ?_⟩
  · unfold select_raw_votes
    rw [h]
    rfl
  · unfold performance_vote_counts_rows
    have hperf : (mapVoterTokens f db).performances = db.performances := rfl
    rw [hperf]
    apply List.map_congr_left
    intro p _
    rw [voteCount_mapVoterTokens]
  · intro pid
    exact performance_vote_counts_congr rfl (voteCount_mapVoterTokens f db pid)

theorem claim9_voter_privacy_witness :
    select_raw_votes .anon listingDB = [] ∧
    performance_vote_counts_rows (mapVoterTokens (fun _ => "") listingDB)
      = performance_vote_counts_rows listingDB ∧
    ∀ pid, performance_vote_counts (mapVoterTokens (fun _ => "") listingDB) pid
      = performance_vote_counts listingDB pid :=
  claim9_voter_privacy (fun _ => "") (by decide)

end Naadanu
